import Mathlib

/-!
Shallow embedding of the flynn log-aggregator core
(`src/logaggregator/aggregator.go`, `src/logaggregator/server.go`).

Messages, filters and the per-app ring buffer are modelled; the aggregator
query paths (`ReadLastN`, `ReadLastNAndSubscribe`), the pause/replication
handshake, and the role controller are translated from the Go source.
Code of packages imported by the repository but not present under `src/`
(the `ring` buffer, the snapshot codec, the filter predicates) is modelled
from the specification, and each such definition says so in its doc comment.
-/

namespace LogAgg

/-- A syslog message: the core treats it as opaque apart from its `AppName`
(`rfc5424.Message` in the source). `body` is an identifier for the rest. -/
structure Message where
  app : String
  body : Nat
deriving DecidableEq, Repr

/-- Modelled from the spec: "Filters are predicates over a Message; their
internal grammar is the collaborator's concern" (the filter code is not
under `src/`). A Go `*rfc5424.Message` may be nil, so the predicate takes
`Option Message`, with `none` standing for the nil pointer. -/
abbrev Filter : Type := Option Message → Bool

/-- Modelled from the spec: the conjunction of the filters, applied to a
(possibly nil) message. Go: `allFiltersMatch(msg, filters)`. -/
def allFiltersMatch (msg : Option Message) (filters : List Filter) : Bool :=
  filters.all fun f => f msg

/-- Modelled from the spec: keep the messages matching every filter, in
order. Go: `filterMessages(messages, filters)`. -/
def filterMessages (ms : List Message) (filters : List Filter) : List Message :=
  ms.filter fun m => allFiltersMatch (some m) filters

/-- Modelled from the spec (§4.1, the `ring` package is not under `src/`):
a ring buffer's contents in insertion order, oldest first. The capacity
bound does not matter for the claims below. -/
abbrev Buffer : Type := List Message

/-- Modelled from the spec: "ReadAll() returns messages in insertion order,
oldest first"; does not mutate the buffer. -/
def Buffer.ReadAll (b : Buffer) : List Message := b

/-- Modelled from the spec: "ReadLastN(n) returns the last min(n, count)
messages in insertion order". The aggregator only calls it with n ≥ 0. -/
def Buffer.ReadLastN (b : Buffer) (n : Int) : List Message :=
  List.drop (List.length b - n.toNat) b

/-- Modelled from the spec: `ReadAllAndSubscribe` atomically captures a
snapshot of current contents (the live-subscription channel is treated
separately). The snapshot part equals `ReadAll`. -/
def Buffer.ReadAllAndSubscribeSnap (b : Buffer) : List Message := b.ReadAll

/-- Modelled from the spec: `ReadLastNAndSubscribe(n)` is "as above with the
snapshot trimmed to the last n". -/
def Buffer.ReadLastNAndSubscribeSnap (b : Buffer) (n : Int) : List Message :=
  b.ReadLastN n

/-- The aggregator's `buffers` map, `map[string]*ring.Buffer`, as an
association list keyed by AppName. -/
abbrev Buffers : Type := List (String × Buffer)

/-- Map lookup `a.buffers[id]`. -/
def Buffers.lookup (bs : Buffers) (id : String) : Option Buffer :=
  Option.map Prod.snd (bs.find? fun p => p.1 == id)

/-- Go `getBuffer`: reads the map under `bmu` and returns the buffer or nil;
it performs no insertion, so the state component is returned unchanged. -/
def getBuffer (bs : Buffers) (id : String) : Option Buffer × Buffers :=
  (bs.lookup id, bs)

/-- Go `getOrInitializeBuffer`: return the existing buffer, or insert and
return a fresh empty one. -/
def getOrInitializeBuffer (bs : Buffers) (id : String) : Buffer × Buffers :=
  match bs.lookup id with
  | some buf => (buf, bs)
  | none => ([], bs ++ [(id, [])])

/-- Go `readLastN` (aggregator.go lines 78–87): nil buffer yields nil;
`n ≥ 0` reads the last n, otherwise everything. -/
def readLastN (bs : Buffers) (id : String) (n : Int) : List Message :=
  match (getBuffer bs id).1 with
  | none => []
  | some buf => if n ≥ 0 then buf.ReadLastN n else buf.ReadAll

/-- The list of messages the `ReadLastN` producer goroutine will attempt to
deliver (aggregator.go lines 55–63), before `done` can interrupt it:
empty filters truncate first; non-empty filters fetch all, filter, then
truncate to the last n when `n > 0` and the filtered list is longer. -/
def readLastNProduced (bs : Buffers) (id : String) (n : Int)
    (filters : List Filter) : List Message :=
  if filters.length = 0 then
    readLastN bs id n
  else
    let messages := filterMessages (readLastN bs id (-1)) filters
    if n > 0 ∧ (messages.length : Int) > n then
      List.drop (messages.length - n.toNat) messages
    else messages

/-- Dispatch condition of `ReadLastNAndSubscribe` (aggregator.go line 105):
`(len(filters) > 0 && n != 0) || n < 0` selects `ReadAllAndSubscribe`. -/
def subscribeUsesReadAll (n : Int) (filters : List Filter) : Bool :=
  (filters.length > 0 && n != 0) || n < 0

/-- The historical portion of `ReadLastNAndSubscribe` (aggregator.go lines
101–115): snapshot from the dispatched ring call, then, when filters are
present, filter and truncate to the last n when `n > 0`. -/
def subscribeHistorical (buf : Buffer) (n : Int)
    (filters : List Filter) : List Message :=
  let messages :=
    if subscribeUsesReadAll n filters then buf.ReadAllAndSubscribeSnap
    else buf.ReadLastNAndSubscribeSnap n
  if filters.length > 0 then
    let fm := filterMessages messages filters
    if n > 0 ∧ (fm.length : Int) > n then
      List.drop (fm.length - n.toNat) fm
    else fm
  else messages

/-- `ReadLastNAndSubscribe` as a state transformer on the buffers map: the
buffer for id is created if absent (line 99), and the historical portion
is computed from it. -/
def readLastNAndSubscribeHist (bs : Buffers) (id : String) (n : Int)
    (filters : List Filter) : List Message × Buffers :=
  let (buf, bs2) := getOrInitializeBuffer bs id
  (subscribeHistorical buf n filters, bs2)

section LiveLoop

/-- What one iteration of the live loop of `ReadLastNAndSubscribe`
(aggregator.go lines 129–146) does with what it received. -/
inductive LiveAction where
  | exit : LiveAction
  | skip : LiveAction
  | send : Option Message → LiveAction
deriving DecidableEq, Repr

/-- What the `select` at the top of the live loop yielded: a signal on
`done`, or a value from `subc` (`none` is the nil message a closed Go
channel of pointers yields). -/
inductive LiveRecv where
  | doneSignal : LiveRecv
  | fromSubc : Option Message → LiveRecv
deriving DecidableEq, Repr

/-- The value of the goroutine's local variable `msgc` as a Go pointer-like
value: it is initialized to a fresh channel at aggregator.go line 97 and
never reassigned anywhere in lines 98–147, so it is never nil. `some 0`
stands for that (non-nil) channel value. -/
def subscribeMsgcVar : Option Nat := some 0

/-- One iteration of the live loop (aggregator.go lines 130–145), translated
branch for branch: on `done`, return; on a value from `subc`, the code
tests `msgc == nil` (line 132), then `allFiltersMatch` (line 135), then
forwards the message (the inner select on lines 138–142; `doneAgain`
tells which arm fires there). -/
def liveLoopBody (msgcVar : Option Nat) (filters : List Filter)
    (recv : LiveRecv) (doneAgain : Bool) : LiveAction :=
  match recv with
  | .doneSignal => .exit
  | .fromSubc msg =>
    if msgcVar = none then .exit
    else if allFiltersMatch msg filters = false then .skip
    else if doneAgain then .exit
    else .send msg

end LiveLoop

section PauseReplication

/-- Modelled from the spec (§3, the `ring` package is not under `src/`):
the ring buffer's capacity C — "at least 10,000 per app is typical". -/
def ringCapacity : Nat := 10000

/-- Modelled from the spec: `Add(m)` on a bounded FIFO of capacity C —
"append m; if full, overwrite the oldest" (§4.1; invariant 2 of §3: once
count = C, each Add overwrites the oldest slot). -/
def Buffer.Add (b : Buffer) (m : Message) : Buffer :=
  if b.length < ringCapacity then b ++ [m] else b.drop 1 ++ [m]

/-- The run loop routes a message with
`getOrInitializeBuffer(string(msg.AppName)).Add(msg)` (aggregator.go line
218): look up or create the buffer for the message's AppName and `Add` to
it. -/
def Buffers.add (bs : Buffers) (m : Message) : Buffers :=
  match bs.lookup m.app with
  | some _ => bs.map fun p => if p.1 == m.app then (p.1, p.2.Add m) else p
  | none => bs ++ [(m.app, Buffer.Add [] m)]

/-- Where the run loop (aggregator.go lines 210–226) stands: at the `select`;
mid-iteration between dequeuing a message and completing its `Add`; or
blocked in the pause handshake (`a.pausec <- struct\x7b\x7d{}` at line 223,
written here as: the ack send of line 223 not yet received by `resume`). -/
inductive RunPhase where
  | ready : RunPhase
  | delivering : Message → RunPhase
  | paused : RunPhase
deriving DecidableEq, Repr

/-- Joint state of the aggregator, the replicator sink of one replication
connection, and the local variables of `fillReplicationConn`:
`inbound` is the `msgc` channel contents, `pmuHeld` the pause mutex,
`snapshot` the local `buffers` of server.go line 232, `sink` the channel
returned by `Replicator.Register` (none before registration). -/
structure SysState where
  inbound : List Message
  buffers : Buffers
  runPhase : RunPhase
  pmuHeld : Bool
  snapshot : Option (List (List Message))
  sink : Option (List Message)
deriving DecidableEq, Repr

/-- Atomic events of the composed system: the syslog handler's two feed
calls (server.go lines 204–205), the run loop's dequeue and Add
(aggregator.go lines 213 and 218), the pause handshake (lines 155–164 and
222–223), and the replication handler's snapshot and registration
(server.go lines 232–233). -/
inductive Label where
  | feedAgg : Message → Label
  | feedRepl : Message → Label
  | deliverStart : Label
  | deliverEnd : Label
  | pauseBegin : Label
  | resume : Label
  | copyBuffers : Label
  | register : Label
deriving DecidableEq, Repr

/-- Capacity of `msgc`: `make(chan *rfc5424.Message, 1000)` (line 28). -/
def msgcCap : Nat := 1000

/-- One interleaving step. A label whose caller would block (full channel,
run loop not at its `select`, pause mutex held, …) leaves the state
unchanged: the blocked call simply has not completed yet. -/
def step (s : SysState) : Label → SysState
  | .feedAgg m =>
    if s.inbound.length < msgcCap then { s with inbound := s.inbound ++ [m] }
    else s
  | .feedRepl m =>
    match s.sink with
    | some q => { s with sink := some (q ++ [m]) }
    | none => s
  | .deliverStart =>
    match s.runPhase, s.inbound with
    | .ready, m :: rest => { s with inbound := rest, runPhase := .delivering m }
    | _, _ => s
  | .deliverEnd =>
    match s.runPhase with
    | .delivering m => { s with buffers := s.buffers.add m, runPhase := .ready }
    | _ => s
  | .pauseBegin =>
    if s.pmuHeld = false ∧ s.runPhase = .ready then
      { s with pmuHeld := true, runPhase := .paused }
    else s
  | .resume =>
    if s.runPhase = .paused then { s with runPhase := .ready, pmuHeld := false }
    else s
  | .copyBuffers => { s with snapshot := some (s.buffers.map Prod.snd) }
  | .register =>
    match s.sink with
    | none => { s with sink := some [] }
    | some _ => s

/-- Whether the label's caller can complete right now (used to certify that
a concrete trace involves no blocked call). -/
def enabled (s : SysState) : Label → Bool
  | .feedAgg _ => decide (s.inbound.length < msgcCap)
  | .feedRepl _ => true
  | .deliverStart => decide (s.runPhase = .ready) && decide (s.inbound ≠ [])
  | .deliverEnd => match s.runPhase with | .delivering _ => true | _ => false
  | .pauseBegin => decide (s.pmuHeld = false) && decide (s.runPhase = .ready)
  | .resume => decide (s.runPhase = .paused)
  | .copyBuffers => true
  | .register => decide (s.sink = none)

/-- Run a list of steps in order. -/
def run (s : SysState) : List Label → SysState
  | [] => s
  | l :: ls => run (step s l) ls

/-- Every step of the trace is taken from a state where it is enabled. -/
def stepsEnabled (s : SysState) : List Label → Bool
  | [] => true
  | l :: ls => enabled s l && stepsEnabled (step s l) ls

/-- Fresh aggregator (`NewAggregator`, line 25) with no replication
connection yet. -/
def initState : SysState :=
  { inbound := [], buffers := [], runPhase := .ready, pmuHeld := false
    snapshot := none, sink := none }

/-- The leader-side replication handshake in source order
(server.go lines 231–234): `Pause`, `CopyBuffers`, `Register`, `unpause`. -/
def handshakeLabels : List Label :=
  [.pauseBegin, .copyBuffers, .register, .resume]

/-- Full ingest of one message, its four events in program order: the
syslog handler feeds the aggregator, the run loop routes it, and the
handler then feeds the replicator. -/
def ingestLabels (m : Message) : List Label :=
  [.feedAgg m, .deliverStart, .deliverEnd, .feedRepl m]

/-- Full ingest of a list of messages, one after the other. -/
def ingestAll (ms : List Message) : List Label :=
  (ms.map ingestLabels).flatten

/-- Modelled from the spec (§4.4, the `snapshot` package is not under
`src/`): `StreamTo(buffers, subc, conn)` writes each snapshot buffer's
messages in the order given, then every message received on subc. This is
the sequence the follower decodes. -/
def streamToOutput (s : SysState) : List Message :=
  (Option.getD s.snapshot []).flatten ++ Option.getD s.sink []

/-- The scenario of claim C2: some messages fully ingested, then the
replication handshake of `fillReplicationConn`, then more messages fully
ingested. -/
def replicationScenario (ms1 ms2 : List Message) : SysState :=
  run initState (ingestAll ms1 ++ (handshakeLabels ++ ingestAll ms2))

end PauseReplication

section ServerModels

/-- Go channel `a.msgc` with its buffer, capacity and closed flag. -/
structure MsgChan where
  queue : List Message
  cap : Nat
  closed : Bool
deriving DecidableEq, Repr

/-- Outcome of a Go channel send: enqueued, blocked until capacity frees
(channel unchanged meanwhile), or the runtime panic a send on a closed
channel raises. -/
inductive SendOutcome where
  | enqueued : MsgChan → SendOutcome
  | blocked : SendOutcome
  | panicked : SendOutcome
deriving DecidableEq, Repr

/-- Go buffered-channel send semantics for `a.msgc <- msg`. -/
def chanSend (c : MsgChan) (m : Message) : SendOutcome :=
  if c.closed then .panicked
  else if c.queue.length < c.cap then .enqueued { c with queue := c.queue ++ [m] }
  else .blocked

/-- `Aggregator.Feed` (aggregator.go lines 151–153): a bare channel send. -/
def Feed (c : MsgChan) (m : Message) : SendOutcome := chanSend c m

/-- `Aggregator.Shutdown` (aggregator.go lines 37–39): `close(a.msgc)`. -/
def Shutdown (c : MsgChan) : MsgChan := { c with closed := true }

/-- The inbound channel as `NewAggregator` makes it:
`make(chan *rfc5424.Message, 1000)` (line 28). -/
def newMsgc : MsgChan := { queue := [], cap := 1000, closed := false }

/-- Side effects of `follow` (server.go lines 284–309), in program order. -/
inductive FollowEffect where
  | dial : FollowEffect
  | flushAgg : FollowEffect
  | spawnDecoder : FollowEffect
deriving DecidableEq, Repr

/-- What `follow` returns and does. `unfollowc` is the channel handed back
on success (`some 0` standing for the fresh channel of line 292). -/
structure FollowResult where
  effects : List FollowEffect
  unfollowc : Option Nat
  isErr : Bool
deriving DecidableEq, Repr

/-- `follow(addr)` (server.go lines 284–309), branch for branch: dial; on
failure return (nil, err) at once; on success `Aggregator.Flush()`, then
spawn the decoder goroutine and return the fresh unfollow channel. -/
def follow (dialOk : Bool) : FollowResult :=
  if dialOk = false then { effects := [.dial], unfollowc := none, isErr := true }
  else
    { effects := [.dial, .flushAgg, .spawnDecoder], unfollowc := some 0
      isErr := false }

/-- The decoder goroutine of `follow` (server.go lines 293–306): for the
i-th decoded frame it first checks whether `unfollowc` is closed
(`closedBefore i`) and returns if so, otherwise Feeds the frame. Returns
the messages Fed into the aggregator. -/
def decoderFed (closedBefore : Nat → Bool) : List Message → Nat → List Message
  | [], _ => []
  | f :: fs, i =>
    if closedBefore i then [] else f :: decoderFed closedBefore fs (i + 1)

/-- Local state of `monitorDiscoverd` (server.go line 246): the current
unfollow channel, nil when no follow goroutine is active. -/
structure MonState where
  unfollowc : Option Nat
deriving DecidableEq, Repr

/-- Observable actions of one `EventKindLeader` iteration of
`monitorDiscoverd`, in program order. -/
inductive MonEffect where
  | closeUnfollow : MonEffect
  | followAddr : String → MonEffect
  | exitAsLeader : MonEffect
deriving DecidableEq, Repr

/-- One `EventKindLeader` iteration (server.go lines 262–281): close
`unfollowc` if non-nil; then, when the new leader is not this server,
call `follow` (the Go multiple assignment stores `follow`'s first return
into `unfollowc`, nil on error) and keep looping; when it is this server,
log and return. Yields (new state, effects in order, loop exited). -/
def handleLeaderEvent (st : MonState) (selfAddr newAddr : String)
    (dialOk : Bool) : MonState × List MonEffect × Bool :=
  let closeEffs :=
    if st.unfollowc ≠ none then [MonEffect.closeUnfollow] else []
  if newAddr ≠ selfAddr then
    ({ unfollowc := (follow dialOk).unfollowc },
      closeEffs ++ [MonEffect.followAddr newAddr], false)
  else
    (st, closeEffs ++ [MonEffect.exitAsLeader], true)

/-- The replicator sink channel after `StreamTo` returned: `pending` holds
what the replicator has sent but nobody received; `closed` is set when
the close-notify deregistration closes the channel. -/
structure SinkChan where
  pending : List Message
  closed : Bool
deriving DecidableEq, Repr

/-- The drain goroutine `for range msgc \x7b\x7d{}` (server.go lines 238–241):
it receives until the channel closes, leaving nothing pending. -/
def forRangeDrain (c : SinkChan) : SinkChan :=
  { pending := [], closed := c.closed }

/-- End of `fillReplicationConn` (server.go lines 236–242): when `StreamTo`
returned an error, the drain goroutine is spawned; otherwise the sink is
left as is. -/
def afterStreamTo (streamErr : Bool) (c : SinkChan) : SinkChan :=
  if streamErr then forRangeDrain c else c

end ServerModels

section DemoInputs

/-- A concrete message for witnesses. -/
def demoMsg (k : Nat) : Message := { app := "web", body := k }

/-- A concrete buffer for witnesses. -/
def demoBuf : Buffer := [demoMsg 1, demoMsg 2, demoMsg 3, demoMsg 4]

/-- A concrete buffers map for witnesses. -/
def demoBuffers : Buffers := [("web", demoBuf)]

/-- A concrete filter for witnesses: matches odd message bodies. -/
def oddFilter : Filter := fun om =>
  match om with
  | some m => m.body % 2 == 1
  | none => false

/-- The straddling interleaving behind claim C2's counterexample: message 1
is fed to the aggregator and routed into its buffer, then the replication
handshake runs, and only then does the syslog handler reach its
`Replicator.Feed` call for the same message. -/
def dupTrace : List Label :=
  [Label.feedAgg (demoMsg 1), Label.deliverStart, Label.deliverEnd,
    Label.pauseBegin, Label.copyBuffers, Label.register, Label.resume,
    Label.feedRepl (demoMsg 1)]

end DemoInputs

/-! ## Helper lemmas about the buffers map -/

theorem find?_key_append_single (bs : Buffers) (id : String) (b : Buffer)
    (h : bs.find? (fun p => p.1 == id) = none) :
    (bs ++ [(id, b)]).find? (fun p => p.1 == id) = some (id, b) := by
  induction bs with
  | nil => simp
  | cons p rest ih =>
    rw [List.find?_cons] at h
    rw [List.cons_append, List.find?_cons]
    cases hp : (p.1 == id) with
    | true => simp [hp] at h
    | false =>
      simp only [hp] at h ⊢
      exact ih h

theorem lookup_append_single (bs : Buffers) (id : String) (b : Buffer)
    (h : Buffers.lookup bs id = none) :
    Buffers.lookup (bs ++ [(id, b)]) id = some b := by
  unfold Buffers.lookup at h ⊢
  have hf : bs.find? (fun p => p.1 == id) = none := by
    cases hx : bs.find? (fun p => p.1 == id) with
    | none => rfl
    | some v => rw [hx] at h; simp at h
  rw [find?_key_append_single bs id b hf]
  rfl

theorem lookup_map_append_entry (bs : Buffers) (app : String) (m : Message)
    (b : Buffer) (h : Buffers.lookup bs app = some b) :
    Buffers.lookup
      (bs.map fun p => if p.1 == app then (p.1, p.2.Add m) else p) app
      = some (b.Add m) := by
  induction bs with
  | nil => simp [Buffers.lookup] at h
  | cons p rest ih =>
    unfold Buffers.lookup at h ⊢
    rw [List.find?_cons] at h
    rw [List.map_cons, List.find?_cons]
    cases hp : (p.1 == app) with
    | true =>
      simp only [hp] at h
      simp at h
      simp [hp, h]
    | false =>
      simp only [hp] at h
      simp [hp]
      simpa [Buffers.lookup] using ih h

theorem lookup_add_same (bs : Buffers) (m : Message) :
    Buffers.lookup (Buffers.add bs m) m.app ≠ none := by
  unfold Buffers.add
  cases h : Buffers.lookup bs m.app with
  | some b => rw [lookup_map_append_entry bs m.app m b h]; simp
  | none => rw [lookup_append_single bs m.app (Buffer.Add [] m) h]; simp

theorem lookup_singleton (id : String) (b : Buffer) :
    Buffers.lookup [(id, b)] id = some b := by
  simp [Buffers.lookup]

/-! ## C1 -/

/-- C1: the claim states that after the subscriber channel `subc` is closed,
the `ReadLastNAndSubscribe` producer terminates and never delivers a nil
message. The code intends this (its comment on aggregator.go line 132 reads
"subc was closed") but tests `msgc == nil`, and the local `msgc` is the
output channel created at line 97 and never reassigned, hence never nil: on
a closed `subc` (which yields nil) with an empty filter list, the loop body
forwards the nil message on the output channel instead of returning. -/
theorem liveLoop_delivers_nil_after_subc_close :
    liveLoopBody subscribeMsgcVar [] (LiveRecv.fromSubc none) false
      = LiveAction.send none ∧
    subscribeMsgcVar ≠ none := by
  constructor
  · rfl
  · simp [subscribeMsgcVar]

/-! ## C3 -/

/-- C3, counterexample: `Feed` invoked after `Shutdown` hits Go's send-on-
closed-channel panic, because `Shutdown` closes the inbound channel and
`Feed` is a bare send on it. -/
theorem feed_after_shutdown_panics :
    Feed (Shutdown newMsgc) { app := "web", body := 0 }
      = SendOutcome.panicked := rfl

/-- C3, amended: while the inbound channel has not been closed by
`Shutdown`, `Feed` never fails: it enqueues immediately when the channel
has capacity and blocks (without error or panic) when it is full. -/
theorem feed_never_fails_before_shutdown (c : MsgChan) (m : Message)
    (h : c.closed = false) :
    Feed c m ≠ SendOutcome.panicked ∧
    (c.queue.length < c.cap →
      Feed c m = SendOutcome.enqueued { c with queue := c.queue ++ [m] }) ∧
    (¬ c.queue.length < c.cap → Feed c m = SendOutcome.blocked) := by
  unfold Feed chanSend
  rw [h]
  by_cases hq : c.queue.length < c.cap <;> simp [hq]

/-- C3, witness for the amended theorem on the channel `NewAggregator`
creates. -/
theorem feed_never_fails_before_shutdown_witness :
    Feed newMsgc { app := "web", body := 0 } ≠ SendOutcome.panicked ∧
    Feed newMsgc { app := "web", body := 0 }
      = SendOutcome.enqueued
          { queue := [{ app := "web", body := 0 }], cap := 1000
            closed := false } :=
  ⟨(feed_never_fails_before_shutdown newMsgc { app := "web", body := 0 }
      rfl).1,
    (feed_never_fails_before_shutdown newMsgc { app := "web", body := 0 }
      rfl).2.1 (by decide)⟩

/-! ## C9 -/

/-- C9: whenever `StreamTo` returns an error, `fillReplicationConn` spawns
the drain goroutine, which consumes the registered subscriber channel until
it closes — afterwards nothing is pending, so the replicator is never
blocked sending to this subscriber; on success no drain runs. -/
theorem streamTo_error_drains_sink (c : SinkChan) (streamErr : Bool) :
    (streamErr = true →
      afterStreamTo streamErr c = { pending := [], closed := c.closed } ∧
      (afterStreamTo streamErr c).pending = []) ∧
    (streamErr = false → afterStreamTo streamErr c = c) := by
  constructor <;> intro h <;> simp [afterStreamTo, forRangeDrain, h]

/-- C9, witness: a sink with one pending message, drained after an error
and untouched on success. -/
theorem streamTo_error_drains_sink_witness :
    (afterStreamTo true
      { pending := [{ app := "web", body := 1 }], closed := false }).pending
      = [] ∧
    afterStreamTo false
      { pending := [{ app := "web", body := 1 }], closed := false }
      = { pending := [{ app := "web", body := 1 }], closed := false } :=
  ⟨((streamTo_error_drains_sink
      { pending := [{ app := "web", body := 1 }], closed := false } true).1
      rfl).2,
    (streamTo_error_drains_sink
      { pending := [{ app := "web", body := 1 }], closed := false } false).2
      rfl⟩

/-! ## C10 -/

/-- C10: for an id with no buffer, the `ReadLastN` producer delivers nothing
(the channel is closed empty) and `getBuffer` leaves the buffers map
untouched; buffers are created only by `getOrInitializeBuffer` — used by
`ReadLastNAndSubscribe` and the run loop — and by the run loop's routing
(`Buffers.add`), both of which do make the buffer exist. -/
theorem readLastN_missing_buffer (bs : Buffers) (id : String) (n : Int)
    (filters : List Filter) (m : Message) (h : bs.lookup id = none) :
    readLastNProduced bs id n filters = [] ∧
    getBuffer bs id = (none, bs) ∧
    (getOrInitializeBuffer bs id).2 = bs ++ [(id, [])] ∧
    Buffers.lookup (getOrInitializeBuffer bs id).2 id = some [] ∧
    Buffers.lookup (Buffers.add bs m) m.app ≠ none := by
  refine ⟨?_, ?_, ?_, ?_, lookup_add_same bs m⟩
  · unfold readLastNProduced readLastN getBuffer
    rw [h]
    by_cases hf : filters.length = 0 <;> simp [hf, filterMessages]
  · unfold getBuffer
    rw [h]
  · unfold getOrInitializeBuffer
    rw [h]
  · unfold getOrInitializeBuffer
    rw [h]
    exact lookup_append_single bs id [] h

/-! ## C5 -/

/-- C5: with a non-empty filter list and n > 0, the `ReadLastN` producer
fetches all buffered messages of id, filters them by the conjunction of
the filters, then truncates to the last n; consequently it yields at most
n messages, each matching every filter, in insertion order (a sublist of
the buffer); with an empty filter list, truncation happens first, directly
on the buffer via `readLastN`. -/
theorem readLastN_filter_then_truncate (bs : Buffers) (id : String) (n : Int)
    (filters : List Filter) (buf : Buffer)
    (hbuf : bs.lookup id = some buf) (hf : filters ≠ []) (hn : 0 < n) :
    readLastNProduced bs id n filters =
      (if ((filterMessages buf.ReadAll filters).length : Int) > n then
        List.drop ((filterMessages buf.ReadAll filters).length - n.toNat)
          (filterMessages buf.ReadAll filters)
      else filterMessages buf.ReadAll filters) ∧
    ((readLastNProduced bs id n filters).length : Int) ≤ n ∧
    (∀ m ∈ readLastNProduced bs id n filters,
      allFiltersMatch (some m) filters = true) ∧
    (readLastNProduced bs id n filters).Sublist buf.ReadAll ∧
    (∀ k : Int, readLastNProduced bs id k [] = readLastN bs id k) := by
  have hall : readLastN bs id (-1) = buf.ReadAll := by
    unfold readLastN getBuffer
    rw [hbuf]
    norm_num
  have hflen : ¬ filters.length = 0 := by
    simpa using hf
  have hmain : readLastNProduced bs id n filters =
      if ((filterMessages buf.ReadAll filters).length : Int) > n then
        List.drop ((filterMessages buf.ReadAll filters).length - n.toNat)
          (filterMessages buf.ReadAll filters)
      else filterMessages buf.ReadAll filters := by
    unfold readLastNProduced
    rw [if_neg hflen, hall]
    by_cases hlen : ((filterMessages buf.ReadAll filters).length : Int) > n <;>
      simp [hn, hlen]
  refine ⟨hmain, ?_, ?_, ?_, ?_⟩
  · rw [hmain]
    by_cases hlen : ((filterMessages buf.ReadAll filters).length : Int) > n <;>
      simp only [hlen, if_pos, if_neg, ite_true, ite_false, List.length_drop]
    · omega
    · omega
  · intro m hm
    rw [hmain] at hm
    have hfm : m ∈ filterMessages buf.ReadAll filters := by
      by_cases hlen : ((filterMessages buf.ReadAll filters).length : Int) > n
      · rw [if_pos hlen] at hm
        exact List.mem_of_mem_drop hm
      · rwa [if_neg hlen] at hm
    have := (List.mem_filter.mp hfm).2
    simpa using this
  · rw [hmain]
    by_cases hlen : ((filterMessages buf.ReadAll filters).length : Int) > n <;>
      simp only [hlen, ite_true, ite_false]
    · exact (List.drop_sublist _ _).trans (List.filter_sublist _)
    · exact List.filter_sublist _
  · intro k
    unfold readLastNProduced
    simp

/-- C5, witness: buffer [1,2,3,4] under the odd filter with n = 1 — at most
one message, matching, in order. -/
theorem readLastN_filter_then_truncate_witness :
    ((readLastNProduced demoBuffers "web" 1 [oddFilter]).length : Int) ≤ 1 ∧
    (readLastNProduced demoBuffers "web" 1 [oddFilter]).Sublist
      demoBuf.ReadAll ∧
    (∀ m ∈ readLastNProduced demoBuffers "web" 1 [oddFilter],
      allFiltersMatch (some m) [oddFilter] = true) := by
  have t := readLastN_filter_then_truncate demoBuffers "web" 1 [oddFilter]
    demoBuf (lookup_singleton "web" demoBuf) (by simp) (by decide)
  exact ⟨t.2.1, t.2.2.2.1, t.2.2.1⟩

/-! ## C6 -/

/-- C6: `ReadLastNAndSubscribe` creates the buffer for id if absent and
leaves the map unchanged if present; its snapshot comes from
`ReadAllAndSubscribe` exactly when (filters non-empty and n ≠ 0) or n < 0,
otherwise from `ReadLastNAndSubscribe(n)`; and for non-empty filters the
historical portion is filtered and truncated exactly as in `ReadLastN`
(for n ≠ 0; at n = 0 the trimmed snapshot is already empty). -/
theorem subscribe_creates_and_filters (bs : Buffers) (id : String) (n : Int)
    (filters : List Filter) (buf : Buffer) :
    Buffers.lookup (readLastNAndSubscribeHist bs id n filters).2 id ≠ none ∧
    (bs.lookup id = some buf →
      (readLastNAndSubscribeHist bs id n filters).2 = bs ∧
      (readLastNAndSubscribeHist bs id n filters).1
        = subscribeHistorical buf n filters) ∧
    (subscribeUsesReadAll n filters = true ↔
      ((filters ≠ [] ∧ n ≠ 0) ∨ n < 0)) ∧
    (filters ≠ [] → n ≠ 0 →
      subscribeHistorical buf n filters
        = readLastNProduced [(id, buf)] id n filters) ∧
    (filters ≠ [] → subscribeHistorical buf 0 filters = []) ∧
    (subscribeHistorical buf n []
      = if n < 0 then buf.ReadAll else buf.ReadLastN n) := by
  refine ⟨?_, ?_, ?_, ?_, ?_, ?_⟩
  · unfold readLastNAndSubscribeHist getOrInitializeBuffer
    cases h : bs.lookup id with
    | some b => simp [h]
    | none =>
      simp only [h]
      simp [lookup_append_single bs id [] h]
  · intro hbuf
    simp [readLastNAndSubscribeHist, getOrInitializeBuffer, hbuf]
  · unfold subscribeUsesReadAll
    simp only [Bool.or_eq_true, Bool.and_eq_true, decide_eq_true_eq,
      bne_iff_ne, List.length_pos]
  · intro hf hn0
    unfold subscribeHistorical subscribeUsesReadAll readLastNProduced
      readLastN getBuffer
    have h1 : filters.length > 0 := List.length_pos.mpr hf
    have h2 : ¬ filters.length = 0 := by omega
    rw [lookup_singleton id buf]
    simp [h1, h2, hn0, Buffer.ReadAllAndSubscribeSnap, Buffer.ReadAll]
  · intro hf
    have h1 : filters.length > 0 := List.length_pos.mpr hf
    unfold subscribeHistorical subscribeUsesReadAll
    simp [h1, Buffer.ReadLastNAndSubscribeSnap, Buffer.ReadLastN,
      filterMessages]
  · unfold subscribeHistorical subscribeUsesReadAll
    by_cases hneg : n < 0 <;>
      simp [hneg, Buffer.ReadAllAndSubscribeSnap, Buffer.ReadAll,
        Buffer.ReadLastNAndSubscribeSnap]

/-- C6, witness at a present buffer with the odd filter and n = 1, and at
n = -2 with no filters. -/
theorem subscribe_creates_and_filters_witness :
    (readLastNAndSubscribeHist demoBuffers "web" 1 [oddFilter]).2
      = demoBuffers ∧
    (subscribeUsesReadAll 1 [oddFilter] = true ↔
      (([oddFilter] ≠ ([] : List Filter) ∧ (1 : Int) ≠ 0) ∨ (1 : Int) < 0)) ∧
    subscribeHistorical demoBuf 1 [oddFilter]
      = readLastNProduced [("web", demoBuf)] "web" 1 [oddFilter] ∧
    subscribeHistorical demoBuf (-2) []
      = (if (-2 : Int) < 0 then demoBuf.ReadAll else demoBuf.ReadLastN (-2)) := by
  have t := subscribe_creates_and_filters demoBuffers "web" 1 [oddFilter]
    demoBuf
  have t2 := subscribe_creates_and_filters demoBuffers "web" (-2) [] demoBuf
  exact ⟨(t.2.1 (lookup_singleton "web" demoBuf)).1, t.2.2.1,
    t.2.2.2.1 (by simp) (by decide), t2.2.2.2.2.2⟩

/-! ## C7 -/

theorem decoderFed_prefix (cb : Nat → Bool) (fs : List Message) (i : Nat) :
    ∃ k, decoderFed cb fs i = fs.take k := by
  induction fs generalizing i with
  | nil => exact ⟨0, rfl⟩
  | cons f rest ih =>
    by_cases hc : cb i = true
    · exact ⟨0, by simp [decoderFed, hc]⟩
    · obtain ⟨k, hk⟩ := ih (i + 1)
      refine ⟨k + 1, ?_⟩
      simp [decoderFed, hc, hk, List.take_succ_cons]

theorem decoderFed_never_closed (cb : Nat → Bool) (h : ∀ i, cb i = false)
    (fs : List Message) (i : Nat) : decoderFed cb fs i = fs := by
  induction fs generalizing i with
  | nil => rfl
  | cons f rest ih => simp [decoderFed, h i, ih (i + 1)]

/-- C7: `follow` dials first; on dial failure it returns an error having
performed no Flush and spawned no goroutine; on success the effect order
is dial, then `Aggregator.Flush`, then the decoder goroutine, which Feeds
a prefix of the decoded frames — all of them if unfollow never closes,
none past the point where it is closed — and after a failed follow
(`unfollowc` nil) the next LeaderChanged event with another leader calls
`follow` again (the retry). -/
theorem follow_dial_then_flush (frames : List Message) (cb : Nat → Bool) :
    follow false
      = { effects := [FollowEffect.dial], unfollowc := none, isErr := true } ∧
    FollowEffect.flushAgg ∉ (follow false).effects ∧
    FollowEffect.spawnDecoder ∉ (follow false).effects ∧
    (follow true).effects
      = [FollowEffect.dial, FollowEffect.flushAgg,
          FollowEffect.spawnDecoder] ∧
    (follow true).isErr = false ∧
    (∃ k, decoderFed cb frames 0 = frames.take k) ∧
    ((∀ i, cb i = false) → decoderFed cb frames 0 = frames) ∧
    (cb 0 = true → decoderFed cb frames 0 = []) ∧
    (∀ selfAddr newAddr dialOk2, newAddr ≠ selfAddr →
      (handleLeaderEvent { unfollowc := none } selfAddr newAddr dialOk2).2.1
        = [MonEffect.followAddr newAddr]) := by
  refine ⟨rfl, by decide, by decide, rfl, rfl, decoderFed_prefix cb frames 0,
    fun h => decoderFed_never_closed cb h frames 0, ?_, ?_⟩
  · intro h
    cases frames <;> simp [decoderFed, h]
  · intro selfAddr newAddr dialOk2 h
    simp [handleLeaderEvent, h]

/-- C7, witness: two frames, unfollow never closed — all frames Fed; plus
the dial-failure facts. -/
theorem follow_dial_then_flush_witness :
    decoderFed (fun _ => false) [demoMsg 1, demoMsg 2] 0
      = [demoMsg 1, demoMsg 2] ∧
    FollowEffect.flushAgg ∉ (follow false).effects ∧
    (handleLeaderEvent { unfollowc := none } "self" "leader" false).2.1
      = [MonEffect.followAddr "leader"] := by
  have t := follow_dial_then_flush [demoMsg 1, demoMsg 2] (fun _ => false)
  exact ⟨t.2.2.2.2.2.2.1 (fun _ => rfl), t.2.1,
    t.2.2.2.2.2.2.2.2 "self" "leader" false (by decide)⟩

/-! ## C8 -/

/-- C8: on a LeaderChanged event, if currently following the unfollow
channel is closed first; when the new leader is this server the loop exits
as leader without starting a follow; otherwise it does not exit, follows
the new address, and the stored unfollow channel is exactly what `follow`
returned (nil when the dial failed). -/
theorem leader_event_state_machine (st : MonState)
    (selfAddr newAddr : String) (dialOk : Bool) :
    (st.unfollowc ≠ none →
      ∃ rest, (handleLeaderEvent st selfAddr newAddr dialOk).2.1
        = MonEffect.closeUnfollow :: rest) ∧
    (st.unfollowc = none →
      MonEffect.closeUnfollow
        ∉ (handleLeaderEvent st selfAddr newAddr dialOk).2.1) ∧
    (newAddr = selfAddr →
      (handleLeaderEvent st selfAddr newAddr dialOk).2.2 = true ∧
      (handleLeaderEvent st selfAddr newAddr dialOk).2.1.getLast?
        = some MonEffect.exitAsLeader ∧
      (handleLeaderEvent st selfAddr newAddr dialOk).1 = st ∧
      ∀ ad, MonEffect.followAddr ad
        ∉ (handleLeaderEvent st selfAddr newAddr dialOk).2.1) ∧
    (newAddr ≠ selfAddr →
      (handleLeaderEvent st selfAddr newAddr dialOk).2.2 = false ∧
      MonEffect.followAddr newAddr
        ∈ (handleLeaderEvent st selfAddr newAddr dialOk).2.1 ∧
      (handleLeaderEvent st selfAddr newAddr dialOk).1.unfollowc
        = (follow dialOk).unfollowc ∧
      (dialOk = true →
        (handleLeaderEvent st selfAddr newAddr dialOk).1.unfollowc ≠ none) ∧
      (dialOk = false →
        (handleLeaderEvent st selfAddr newAddr dialOk).1.unfollowc
          = none)) := by
  refine ⟨?_, ?_, ?_, ?_⟩
  · intro h
    by_cases hn : newAddr ≠ selfAddr
    · exact ⟨[MonEffect.followAddr newAddr],
        by simp [handleLeaderEvent, h, hn]⟩
    · exact ⟨[MonEffect.exitAsLeader],
        by simp [handleLeaderEvent, h, hn]⟩
  · intro h
    by_cases hn : newAddr ≠ selfAddr <;> simp [handleLeaderEvent, h, hn]
  · intro h
    cases hu : st.unfollowc <;>
      simp [handleLeaderEvent, h, hu]
  · intro h
    cases hd : dialOk <;> cases hu : st.unfollowc <;>
      simp [handleLeaderEvent, h, hu, follow]

/-- C8, witness: following ⟨some 0⟩, event for another leader with a
successful dial, and the self-leader exit. -/
theorem leader_event_state_machine_witness :
    (∃ rest, (handleLeaderEvent { unfollowc := some 0 } "a" "b" true).2.1
      = MonEffect.closeUnfollow :: rest) ∧
    (handleLeaderEvent { unfollowc := some 0 } "a" "b" true).2.2 = false ∧
    (handleLeaderEvent { unfollowc := some 0 } "a" "a" true).2.2 = true := by
  have t := leader_event_state_machine { unfollowc := some 0 } "a" "b" true
  have t2 := leader_event_state_machine { unfollowc := some 0 } "a" "a" true
  exact ⟨t.1 (by simp), (t.2.2.2 (by decide)).1, (t2.2.2.1 rfl).1⟩

/-- C10, witness: a map holding only "other" has no buffer for "web"; the
producer for "web" yields nothing and the map is untouched. -/
theorem readLastN_missing_buffer_witness :
    readLastNProduced [("other", [{ app := "other", body := 5 }])] "web" 3 []
      = [] ∧
    getBuffer [("other", [{ app := "other", body := 5 }])] "web"
      = (none, [("other", [{ app := "other", body := 5 }])]) :=
  ⟨(readLastN_missing_buffer
      [("other", [{ app := "other", body := 5 }])] "web" 3 []
      { app := "web", body := 0 } (by decide)).1,
    (readLastN_missing_buffer
      [("other", [{ app := "other", body := 5 }])] "web" 3 []
      { app := "web", body := 0 } (by decide)).2.1⟩

/-! ## Transition-system lemmas for C2 and C4 -/

theorem step_feedAgg (s : SysState) (m : Message) :
    step s (Label.feedAgg m)
      = if s.inbound.length < msgcCap then { s with inbound := s.inbound ++ [m] }
        else s := rfl

theorem step_pauseBegin_eq (s : SysState) :
    step s Label.pauseBegin
      = if s.pmuHeld = false ∧ s.runPhase = RunPhase.ready then
          { s with pmuHeld := true, runPhase := RunPhase.paused }
        else s := rfl

/-- Every non-`resume` step taken from a paused state keeps the loop
paused, leaves every buffer untouched, and at most appends to the inbound
queue, never past its capacity. -/
theorem step_paused (s : SysState) (l : Label)
    (hp : s.runPhase = RunPhase.paused) (hl : l ≠ Label.resume) :
    (step s l).runPhase = RunPhase.paused ∧
    (step s l).buffers = s.buffers ∧
    (∃ q, (step s l).inbound = s.inbound ++ q) ∧
    (step s l).inbound.length ≤ max s.inbound.length msgcCap := by
  cases l with
  | feedAgg m =>
    rw [step_feedAgg]
    by_cases hc : s.inbound.length < msgcCap
    · rw [if_pos hc]
      refine ⟨hp, rfl, ⟨[m], rfl⟩, ?_⟩
      simp only [List.length_append, List.length_cons, List.length_nil]
      omega
    · rw [if_neg hc]
      exact ⟨hp, rfl, ⟨[], by simp⟩, le_max_left _ _⟩
  | feedRepl m =>
    cases hs : s.sink with
    | none =>
      have he : step s (Label.feedRepl m) = s := by unfold step; rw [hs]
      rw [he]
      exact ⟨hp, rfl, ⟨[], by simp⟩, le_max_left _ _⟩
    | some q =>
      have he : step s (Label.feedRepl m) = { s with sink := some (q ++ [m]) } := by
        unfold step; rw [hs]
      rw [he]
      exact ⟨hp, rfl, ⟨[], by simp⟩, le_max_left _ _⟩
  | deliverStart =>
    have he : step s Label.deliverStart = s := by unfold step; rw [hp]
    rw [he]
    exact ⟨hp, rfl, ⟨[], by simp⟩, le_max_left _ _⟩
  | deliverEnd =>
    have he : step s Label.deliverEnd = s := by unfold step; rw [hp]
    rw [he]
    exact ⟨hp, rfl, ⟨[], by simp⟩, le_max_left _ _⟩
  | pauseBegin =>
    have he : step s Label.pauseBegin = s := by
      rw [step_pauseBegin_eq, if_neg]
      rw [hp]
      simp
    rw [he]
    exact ⟨hp, rfl, ⟨[], by simp⟩, le_max_left _ _⟩
  | resume => exact absurd rfl hl
  | copyBuffers =>
    have he : step s Label.copyBuffers
        = { s with snapshot := some (s.buffers.map Prod.snd) } := rfl
    rw [he]
    exact ⟨hp, rfl, ⟨[], by simp⟩, le_max_left _ _⟩
  | register =>
    cases hs : s.sink with
    | none =>
      have he : step s Label.register = { s with sink := some [] } := by
        unfold step; rw [hs]
      rw [he]
      exact ⟨hp, rfl, ⟨[], by simp⟩, le_max_left _ _⟩
    | some q =>
      have he : step s Label.register = s := by unfold step; rw [hs]
      rw [he]
      exact ⟨hp, rfl, ⟨[], by simp⟩, le_max_left _ _⟩

/-- Frame property of a paused aggregator over a whole resume-free trace. -/
theorem run_paused_frame (t : List Label) (s : SysState)
    (hp : s.runPhase = RunPhase.paused) (hr : Label.resume ∉ t) :
    (run s t).runPhase = RunPhase.paused ∧
    (run s t).buffers = s.buffers ∧
    (∃ q, (run s t).inbound = s.inbound ++ q) ∧
    (run s t).inbound.length ≤ max s.inbound.length msgcCap := by
  induction t generalizing s with
  | nil => exact ⟨hp, rfl, ⟨[], by simp [run]⟩, le_max_left _ _⟩
  | cons l t ih =>
    have hl : l ≠ Label.resume := fun h => hr (h ▸ List.mem_cons_self l t)
    have hr2 : Label.resume ∉ t := fun h => hr (List.mem_cons_of_mem l h)
    obtain ⟨hp1, hb1, ⟨q1, hq1⟩, hlen1⟩ := step_paused s l hp hl
    obtain ⟨hp2, hb2, ⟨q2, hq2⟩, hlen2⟩ := ih (step s l) hp1 hr2
    refine ⟨hp2, by rw [show run s (l :: t) = run (step s l) t from rfl, hb2, hb1],
      ⟨q1 ++ q2, ?_⟩, ?_⟩
    · rw [show run s (l :: t) = run (step s l) t from rfl, hq2, hq1,
        List.append_assoc]
    · rw [show run s (l :: t) = run (step s l) t from rfl]
      have he : (step s l).inbound.length = s.inbound.length + q1.length := by
        rw [hq1]
        simp
      omega

/-! ## C4 -/

/-- C4: `Pause` is serialized by `pmu` and only completes when the run loop
is at its `select` (not mid-delivery); and from a state where the run loop
is paused, any resume-free trace changes no buffer, keeps the loop paused,
only ever appends to the inbound queue (concurrent Feeds enqueue, nothing
is dequeued), and never grows it past the channel capacity. -/
theorem pause_quiescent_no_adds (s s2 : SysState) (t : List Label)
    (m : Message) (hp : s.runPhase = RunPhase.paused)
    (hr : Label.resume ∉ t) :
    (run s t).buffers = s.buffers ∧
    (run s t).runPhase = RunPhase.paused ∧
    (∃ q, (run s t).inbound = s.inbound ++ q) ∧
    (s.inbound.length ≤ msgcCap → (run s t).inbound.length ≤ msgcCap) ∧
    (s2.runPhase = RunPhase.delivering m → step s2 Label.pauseBegin = s2) ∧
    (s2.pmuHeld = true → step s2 Label.pauseBegin = s2) := by
  obtain ⟨h1, h2, h3, h4⟩ := run_paused_frame t s hp hr
  refine ⟨h2, h1, h3, fun hle => ?_, fun hd => ?_, fun hm => ?_⟩
  · omega
  · rw [step_pauseBegin_eq, if_neg]
    rw [hd]
    simp
  · rw [step_pauseBegin_eq, if_neg]
    rw [hm]
    simp

/-- C4, witness: a paused state; a trace with a Feed, a dequeue attempt and
a snapshot leaves the buffers untouched, stays paused, and only enqueues. -/
theorem pause_quiescent_no_adds_witness :
    (run
        { inbound := [], buffers := [("web", [demoMsg 1])]
          runPhase := RunPhase.paused, pmuHeld := true, snapshot := none
          sink := none }
        [Label.feedAgg (demoMsg 2), Label.deliverStart,
          Label.copyBuffers]).buffers = [("web", [demoMsg 1])] ∧
    (run
        { inbound := [], buffers := [("web", [demoMsg 1])]
          runPhase := RunPhase.paused, pmuHeld := true, snapshot := none
          sink := none }
        [Label.feedAgg (demoMsg 2), Label.deliverStart,
          Label.copyBuffers]).runPhase = RunPhase.paused := by
  have t := pause_quiescent_no_adds
    { inbound := [], buffers := [("web", [demoMsg 1])]
      runPhase := RunPhase.paused, pmuHeld := true, snapshot := none
      sink := none }
    { inbound := [], buffers := [], runPhase := RunPhase.ready
      pmuHeld := true, snapshot := none, sink := none }
    [Label.feedAgg (demoMsg 2), Label.deliverStart, Label.copyBuffers]
    (demoMsg 3) rfl (by decide)
  exact ⟨t.1, t.2.1⟩

/-! ## C2 -/

/-- C2, counterexample: an interleaving in which every step is enabled (no
call blocked) and which follows `fillReplicationConn`'s exact order
Pause → CopyBuffers → Register → unpause, yet the follower receives
message 1 twice: the syslog handler fed it to the aggregator and the run
loop routed it into the buffer before the handshake (so it is in the
snapshot), but the handler's `Replicator.Feed` call for the same message
only ran after registration (so it is in the tail as well). Nothing in the
code orders the two feed calls of `drainSyslogConn` (server.go lines
204–205) against the handshake. -/
theorem replication_duplicate_counterexample :
    stepsEnabled initState dupTrace = true ∧
    List.count (demoMsg 1) (streamToOutput (run initState dupTrace)) = 2 := by
  constructor
  · decide
  · decide

theorem run_append (s : SysState) (t1 t2 : List Label) :
    run s (t1 ++ t2) = run (run s t1) t2 := by
  induction t1 generalizing s with
  | nil => rfl
  | cons l t1 ih => exact ih (step s l)

theorem run_ingest_no_sink (snap : Option (List (List Message)))
    (ms : List Message) (bs : Buffers) :
    run { inbound := [], buffers := bs, runPhase := RunPhase.ready
          pmuHeld := false, snapshot := snap, sink := none } (ingestAll ms)
      = { inbound := [], buffers := ms.foldl Buffers.add bs
          runPhase := RunPhase.ready, pmuHeld := false, snapshot := snap
          sink := none } := by
  induction ms generalizing bs with
  | nil => rfl
  | cons m rest ih =>
    have hsplit : ingestAll (m :: rest) = ingestLabels m ++ ingestAll rest := by
      simp [ingestAll]
    have hstep :
        run { inbound := [], buffers := bs, runPhase := RunPhase.ready
              pmuHeld := false, snapshot := snap, sink := none }
          (ingestLabels m)
        = { inbound := [], buffers := bs.add m, runPhase := RunPhase.ready
            pmuHeld := false, snapshot := snap, sink := none } := by
      simp [ingestLabels, run, step, msgcCap]
    rw [hsplit, run_append, hstep, ih]
    rfl

theorem run_ingest_with_sink (snap : Option (List (List Message)))
    (ms : List Message) (bs : Buffers) (q : List Message) :
    run { inbound := [], buffers := bs, runPhase := RunPhase.ready
          pmuHeld := false, snapshot := snap, sink := some q } (ingestAll ms)
      = { inbound := [], buffers := ms.foldl Buffers.add bs
          runPhase := RunPhase.ready, pmuHeld := false, snapshot := snap
          sink := some (q ++ ms) } := by
  induction ms generalizing bs q with
  | nil => simp [ingestAll, run]
  | cons m rest ih =>
    have hsplit : ingestAll (m :: rest) = ingestLabels m ++ ingestAll rest := by
      simp [ingestAll]
    have hstep :
        run { inbound := [], buffers := bs, runPhase := RunPhase.ready
              pmuHeld := false, snapshot := snap, sink := some q }
          (ingestLabels m)
        = { inbound := [], buffers := bs.add m, runPhase := RunPhase.ready
            pmuHeld := false, snapshot := snap, sink := some (q ++ [m]) } := by
      simp [ingestLabels, run, step, msgcCap]
    rw [hsplit, run_append, hstep, ih]
    simp

theorem run_handshake (bs : Buffers) :
    run { inbound := [], buffers := bs, runPhase := RunPhase.ready
          pmuHeld := false, snapshot := none, sink := none } handshakeLabels
      = { inbound := [], buffers := bs, runPhase := RunPhase.ready
          pmuHeld := false, snapshot := some (bs.map Prod.snd)
          sink := some [] } := by
  simp [handshakeLabels, run, step]

theorem add_single_app (app : String) (l : Buffer) (m : Message)
    (hm : m.app = app) :
    Buffers.add [(app, l)] m = [(app, l.Add m)] := by
  unfold Buffers.add
  rw [hm, lookup_singleton]
  simp

theorem buffer_add_below_cap (l : Buffer) (m : Message)
    (hlen : l.length < ringCapacity) : l.Add m = l ++ [m] := by
  unfold Buffer.Add
  rw [if_pos hlen]

theorem foldl_add_single_app (app : String) (ms : List Message) (l : Buffer)
    (h : ∀ m ∈ ms, m.app = app)
    (hlen : l.length + ms.length ≤ ringCapacity) :
    ms.foldl Buffers.add [(app, l)] = [(app, l ++ ms)] := by
  induction ms generalizing l with
  | nil => simp
  | cons m rest ih =>
    simp only [List.length_cons] at hlen
    rw [List.foldl_cons, add_single_app app l m (h m (List.mem_cons_self m rest)),
      buffer_add_below_cap l m (by omega),
      ih (l ++ [m]) (fun x hx => h x (List.mem_cons_of_mem m hx))
        (by simp only [List.length_append, List.length_cons, List.length_nil]; omega)]
    simp

theorem foldl_add_from_nil (app : String) (ms : List Message)
    (h : ∀ m ∈ ms, m.app = app) (hlen : ms.length ≤ ringCapacity) :
    List.flatten (List.map Prod.snd (ms.foldl Buffers.add [])) = ms := by
  cases ms with
  | nil => rfl
  | cons m rest =>
    have hm : m.app = app := h m (List.mem_cons_self m rest)
    have h1 : Buffers.add [] m = [(m.app, Buffer.Add [] m)] := by
      unfold Buffers.add
      simp [Buffers.lookup]
    have h2 : Buffer.Add [] m = [m] := by
      rw [buffer_add_below_cap [] m (by simp [ringCapacity])]
      simp
    simp only [List.length_cons] at hlen
    rw [List.foldl_cons, h1, h2, hm,
      foldl_add_single_app app rest [m]
        (fun x hx => h x (List.mem_cons_of_mem m hx))
        (by simp only [List.length_cons, List.length_nil]; omega)]
    simp

/-- C2, amended: on an accepted replication connection the leader runs
Pause, CopyBuffers, Register, unpause, StreamTo in exactly that order; the
snapshot is taken and the subscription installed while the aggregator is
still paused, and ingest resumes only after both; the follower receives
the snapshot prefix first and then every message fed after registration,
in order — and PROVIDED each message's aggregator routing and replicator
feed both complete on the same side of the handshake (none straddles it),
and the prior history fits in the ring buffer's capacity (the spec scopes
gap-freedom to the bounded buffer window; beyond it Add overwrites the
oldest), the combined stream is exactly the full feed sequence, gap-free
and duplicate-free. (Without the no-straddling proviso a message can
appear twice or not at all; see the counterexample.) -/
theorem replication_handshake_amended (app : String) (ms1 ms2 : List Message)
    (h1 : ∀ m ∈ ms1, m.app = app) (hcap : ms1.length ≤ ringCapacity) :
    (step (run initState (ingestAll ms1)) Label.pauseBegin).runPhase
      = RunPhase.paused ∧
    (step (step (run initState (ingestAll ms1)) Label.pauseBegin)
        Label.copyBuffers).runPhase = RunPhase.paused ∧
    (step (step (step (run initState (ingestAll ms1)) Label.pauseBegin)
        Label.copyBuffers) Label.register).runPhase = RunPhase.paused ∧
    (run (run initState (ingestAll ms1)) handshakeLabels).runPhase
      = RunPhase.ready ∧
    streamToOutput (replicationScenario ms1 ms2) = ms1 ++ ms2 := by
  have hpre : run initState (ingestAll ms1)
      = { inbound := [], buffers := ms1.foldl Buffers.add []
          runPhase := RunPhase.ready, pmuHeld := false, snapshot := none
          sink := none } := by
    have := run_ingest_no_sink none ms1 []
    simpa [initState] using this
  refine ⟨?_, ?_, ?_, ?_, ?_⟩
  · rw [hpre]
    simp [step]
  · rw [hpre]
    simp [step]
  · rw [hpre]
    simp [step]
  · rw [hpre, run_handshake]
  · unfold replicationScenario
    rw [run_append, run_append, hpre, run_handshake, run_ingest_with_sink]
    simp only [streamToOutput, Option.getD_some, List.nil_append]
    rw [foldl_add_from_nil app ms1 h1 hcap]

/-- C2, witness for the amended theorem: one message before the handshake,
one after — the follower stream is exactly both, in order. -/
theorem replication_handshake_amended_witness :
    streamToOutput (replicationScenario [demoMsg 1] [demoMsg 2])
      = [demoMsg 1, demoMsg 2] ∧
    (run (run initState (ingestAll [demoMsg 1])) handshakeLabels).runPhase
      = RunPhase.ready :=
  ⟨(replication_handshake_amended "web" [demoMsg 1] [demoMsg 2]
      (by decide) (by decide)).2.2.2.2,
    (replication_handshake_amended "web" [demoMsg 1] [demoMsg 2]
      (by decide) (by decide)).2.2.2.1⟩

end LogAgg
